import Mathlib

/-!
Verification development for the polymind AI-analysis orchestration core
(`src/api/ai.ts` and `src/components/AIAnalysis.tsx`), shallowly embedded
in Lean. Network interactions are modelled by explicit environments that
script each endpoint's replies; callbacks are modelled by event traces.
-/

set_option linter.unusedVariables false

/-- JSON values, modelling the runtime values produced by the JavaScript
built-in `JSON.parse`. Numbers keep their source lexeme (no claim inspects
numeric values). -/
inductive Json where
  | null
  | bool (b : Bool)
  | num (lexeme : String)
  | str (s : String)
  | arr (xs : List Json)
  | obj (fields : List (String × Json))

/-- Whitespace accepted between JSON tokens. -/
def jsonWs (c : Char) : Bool :=
  c == ' ' || c == '\t' || c == '\n' || c == '\r'

/-- Value of a hexadecimal digit character. -/
def hexVal (c : Char) : Option Nat :=
  if '0' ≤ c ∧ c ≤ '9' then some (c.toNat - '0'.toNat)
  else if 'a' ≤ c ∧ c ≤ 'f' then some (c.toNat - 'a'.toNat + 10)
  else if 'A' ≤ c ∧ c ≤ 'F' then some (c.toNat - 'A'.toNat + 10)
  else none

/-- Parse the body of a JSON string literal (the opening quote already
consumed), handling the standard escape sequences. Returns the decoded
string and the input remaining after the closing quote. -/
def parseJStringAux : Nat → List Char → List Char → Option (String × List Char)
  | 0, _, _ => none
  | fuel + 1, acc, cs =>
    match cs with
    | [] => none
    | '"' :: rest => some (String.mk acc.reverse, rest)
    | '\\' :: esc =>
      match esc with
      | '"' :: r => parseJStringAux fuel ('"' :: acc) r
      | '\\' :: r => parseJStringAux fuel ('\\' :: acc) r
      | '/' :: r => parseJStringAux fuel ('/' :: acc) r
      | 'b' :: r => parseJStringAux fuel ('\x08' :: acc) r
      | 'f' :: r => parseJStringAux fuel ('\x0c' :: acc) r
      | 'n' :: r => parseJStringAux fuel ('\n' :: acc) r
      | 'r' :: r => parseJStringAux fuel ('\r' :: acc) r
      | 't' :: r => parseJStringAux fuel ('\t' :: acc) r
      | 'u' :: h1 :: h2 :: h3 :: h4 :: r =>
        match hexVal h1, hexVal h2, hexVal h3, hexVal h4 with
        | some a, some b, some c, some d =>
          parseJStringAux fuel (Char.ofNat (((a * 16 + b) * 16 + c) * 16 + d) :: acc) r
        | _, _, _, _ => none
      | _ => none
    | c :: rest => parseJStringAux fuel (c :: acc) rest

/-- Character that may occur in a (leniently lexed) JSON number literal. -/
def jsonNumChar (c : Char) : Bool :=
  ('0' ≤ c ∧ c ≤ '9') || c == '-' || c == '+' || c == '.' || c == 'e' || c == 'E'

/-- Character that may start a JSON number literal. -/
def jsonNumStart (c : Char) : Bool :=
  ('0' ≤ c ∧ c ≤ '9') || c == '-'

/-- Parser request: a value, object members, or array elements. Encoding the
three mutually recursive parser entry points as one sum keeps the parser a
single structural recursion on fuel, so it evaluates in the kernel. -/
inductive PIn where
  | pv (cs : List Char)
  | pm (cs : List Char)
  | pe (cs : List Char)

/-- Parser reply corresponding to each `PIn` request. -/
inductive POut where
  | ov (j : Json) (rest : List Char)
  | om (ms : List (String × Json)) (rest : List Char)
  | oe (es : List Json) (rest : List Char)

/-- One step of the JSON parser. `pv` parses one value, `pm` parses
comma-separated object members stopping before the closing brace, `pe`
parses comma-separated array elements stopping before the closing bracket. -/
def parseStep : Nat → PIn → Option POut
  | 0, _ => none
  | fuel + 1, .pv cs =>
    match cs.dropWhile jsonWs with
    | [] => none
    | '{' :: rest =>
      match rest.dropWhile jsonWs with
      | '}' :: r2 => some (.ov (.obj []) r2)
      | _ =>
        match parseStep fuel (.pm rest) with
        | some (.om ms r2) =>
          match r2.dropWhile jsonWs with
          | '}' :: r3 => some (.ov (.obj ms) r3)
          | _ => none
        | _ => none
    | '[' :: rest =>
      match rest.dropWhile jsonWs with
      | ']' :: r2 => some (.ov (.arr []) r2)
      | _ =>
        match parseStep fuel (.pe rest) with
        | some (.oe es r2) =>
          match r2.dropWhile jsonWs with
          | ']' :: r3 => some (.ov (.arr es) r3)
          | _ => none
        | _ => none
    | '"' :: rest =>
      match parseJStringAux (rest.length + 1) [] rest with
      | some (s, r2) => some (.ov (.str s) r2)
      | none => none
    | 't' :: 'r' :: 'u' :: 'e' :: rest => some (.ov (.bool true) rest)
    | 'f' :: 'a' :: 'l' :: 's' :: 'e' :: rest => some (.ov (.bool false) rest)
    | 'n' :: 'u' :: 'l' :: 'l' :: rest => some (.ov .null rest)
    | c :: rest =>
      if jsonNumStart c then
        some (.ov (.num (String.mk (c :: rest.takeWhile jsonNumChar)))
          (rest.dropWhile jsonNumChar))
      else none
  | fuel + 1, .pm cs =>
    match cs.dropWhile jsonWs with
    | '"' :: rest =>
      match parseJStringAux (rest.length + 1) [] rest with
      | none => none
      | some (key, r2) =>
        match r2.dropWhile jsonWs with
        | ':' :: r3 =>
          match parseStep fuel (.pv r3) with
          | some (.ov v r4) =>
            match r4.dropWhile jsonWs with
            | ',' :: r5 =>
              match parseStep fuel (.pm r5) with
              | some (.om ms r6) => some (.om ((key, v) :: ms) r6)
              | _ => none
            | r5 => some (.om [(key, v)] r5)
          | _ => none
        | _ => none
    | _ => none
  | fuel + 1, .pe cs =>
    match parseStep fuel (.pv cs) with
    | some (.ov v r2) =>
      match r2.dropWhile jsonWs with
      | ',' :: r3 =>
        match parseStep fuel (.pe r3) with
        | some (.oe es r4) => some (.oe (v :: es) r4)
        | _ => none
      | r3 => some (.oe [v] r3)
    | _ => none

/-- Model of the JavaScript built-in `JSON.parse`: parses a complete JSON
document, rejecting trailing garbage; returns `none` where `JSON.parse`
would throw. -/
def Json.parse (s : String) : Option Json :=
  match parseStep (s.length + 1) (.pv s.toList) with
  | some (.ov j rest) => if rest.dropWhile jsonWs = [] then some j else none
  | _ => none

/-- Object field lookup (`x.k` on a parsed JSON object; anything else is
`undefined`, modelled as `none`). -/
def jField : Option Json → String → Option Json
  | some (.obj fields), k => (fields.find? (fun p => p.1 == k)).map (·.2)
  | _, _ => none

/-- Array index access (`x[i]` on a parsed JSON array; anything else is
`undefined`, modelled as `none`). -/
def jIndex : Option Json → Nat → Option Json
  | some (.arr xs), i => xs[i]?
  | _, _ => none

/-- String extraction with the `typeof x === "string"` guard. -/
def jStr : Option Json → Option String
  | some (.str s) => some s
  | _ => none

/-- Hexadecimal digit character for a value below 16. -/
def hexDigitChar (n : Nat) : Char :=
  if n < 10 then Char.ofNat ('0'.toNat + n) else Char.ofNat ('a'.toNat + (n - 10))

/-- Escape one character the way `JSON.stringify` does inside string
literals. -/
def jsonEscapeChar (c : Char) : String :=
  if c = '"' then "\\\""
  else if c = '\\' then "\\\\"
  else if c = '\n' then "\\n"
  else if c = '\r' then "\\r"
  else if c = '\t' then "\\t"
  else if c = '\x08' then "\\b"
  else if c = '\x0c' then "\\f"
  else if c.toNat < 32 then
    "\\u00" ++ String.mk [hexDigitChar (c.toNat / 16), hexDigitChar (c.toNat % 16)]
  else String.singleton c

/-- Model of `JSON.stringify` on a string value. -/
def jsonEscapeString (s : String) : String :=
  "\"" ++ String.join (s.toList.map jsonEscapeChar) ++ "\""

/-- Whitespace class shared by the JavaScript `\s` regular-expression class
and `String.prototype.trim` (the characters relevant here). -/
def jsRegexWs (c : Char) : Bool :=
  c == ' ' || c == '\t' || c == '\n' || c == '\r' || c == '\x0b' || c == '\x0c' ||
    c == ' ' || c == '﻿'

/-- Trim on character lists, modelling `String.prototype.trim`. -/
def jsTrimList (cs : List Char) : List Char :=
  ((cs.dropWhile jsRegexWs).reverse.dropWhile jsRegexWs).reverse

/-- Model of `String.prototype.trim`. -/
def jsTrim (s : String) : String :=
  String.mk (jsTrimList s.toList)

/-- Boolean prefix test on character lists. -/
def isPrefixOfChars : List Char → List Char → Bool
  | [], _ => true
  | _ :: _, [] => false
  | p :: ps, c :: cs => p == c && isPrefixOfChars ps cs

/-- Model of `String.prototype.startsWith`. -/
def jsStartsWith (s pre : String) : Bool :=
  isPrefixOfChars pre.toList s.toList

/-- Model of `String.prototype.slice(n)` for a non-negative start. -/
def strDrop (s : String) (n : Nat) : String :=
  String.mk (s.toList.drop n)

/-- Accumulator loop splitting a character list at a separator character. -/
def splitOnCharAux (sep : Char) : List Char → List Char → List (List Char)
  | acc, [] => [acc.reverse]
  | acc, x :: xs =>
    if x = sep then acc.reverse :: splitOnCharAux sep [] xs
    else splitOnCharAux sep (x :: acc) xs

/-- Model of `String.prototype.split` at a one-character separator. -/
def strSplitOnChar (sep : Char) (s : String) : List String :=
  (splitOnCharAux sep [] s.toList).map String.mk

/-- Join with a separator, modelling `Array.prototype.join`. -/
def strIntercalate (sep : String) : List String → String
  | [] => ""
  | [x] => x
  | x :: rest => x ++ sep ++ strIntercalate sep rest

mutual

/-- Model of the JavaScript built-in `JSON.stringify` on a `Json` value. -/
def Json.render : Json → String
  | .null => "null"
  | .bool true => "true"
  | .bool false => "false"
  | .num lx => lx
  | .str s => jsonEscapeString s
  | .arr xs => "[" ++ Json.renderList xs ++ "]"
  | .obj ms => "\x7b" ++ Json.renderMembers ms ++ "\x7d"

/-- Comma-separated rendering of array elements. -/
def Json.renderList : List Json → String
  | [] => ""
  | [x] => Json.render x
  | x :: rest => Json.render x ++ "," ++ Json.renderList rest

/-- Comma-separated rendering of object members. -/
def Json.renderMembers : List (String × Json) → String
  | [] => ""
  | [(k, v)] => jsonEscapeString k ++ ":" ++ Json.render v
  | (k, v) :: rest => jsonEscapeString k ++ ":" ++ Json.render v ++ "," ++ Json.renderMembers rest

end

/-!
Embedding of `src/api/ai.ts`.
-/

/-- Configuration record, from `AIConfig` in the repository's types module. -/
structure AIConfig where
  baseUrl : String
  apiKey : String
  model : String
  promptTemplate : String
  tavilyApiKey : String
deriving DecidableEq

/-- Function payload of a tool call (`function: { name, arguments }`); kept
optional because the source reads it with optional chaining. -/
structure ToolFunction where
  name : String
  arguments : String
deriving DecidableEq

/-- One tool call from a chat response (`ChatToolCall` in the source). -/
structure ChatToolCall where
  id : String
  fn : Option ToolFunction
deriving DecidableEq

/-- Transcript message (`ChatMessage` in the source). -/
inductive ChatMessage where
  | system (content : String)
  | user (content : String)
  | assistant (content : String) (tool_calls : List ChatToolCall)
  | tool (tool_call_id : String) (content : String)
deriving DecidableEq

/-- Message of one choice of a non-streaming chat-completion response, as the
source casts it: `{ content?: unknown; tool_calls?: ChatToolCall[] }`. -/
structure RespMessage where
  content : Option Json
  tool_calls : Option (List ChatToolCall)

/-- One entry of the `choices` array of a chat-completion response. -/
structure Choice where
  message : Option RespMessage

/-- Non-streaming chat-completion response body, as the source casts it. -/
structure ChatResponse where
  choices : Option (List Choice)

/-- Value of `response.choices?.[0]?.message`. -/
def respMessage (r : ChatResponse) : Option RespMessage :=
  match r.choices with
  | none => none
  | some cs =>
    match cs.head? with
    | none => none
    | some c => c.message

/-- Model of `extractTextContent` (ai.ts): a string passes through, an array
concatenates its string items and the string `text` fields of its object
items, anything else becomes the empty string. -/
def extractTextContent : Json → String
  | .str s => s
  | .arr items =>
    String.join (items.map fun item =>
      match item with
      | .str s => s
      | .obj fields =>
        match fields.find? (fun p => p.1 == "text") with
        | some (_, Json.str t) => t
        | _ => ""
      | _ => "")
  | _ => ""

/-- Lifting of `extractTextContent` to a possibly-absent content field. -/
def extractTextContentOpt : Option Json → String
  | none => ""
  | some j => extractTextContent j

/-- Network-level outcome of one HTTP exchange: a rejected fetch promise
(abort or network failure) or a non-2xx response, as distinguished by the
source's error handling. -/
inductive NetErr where
  | aborted (msg : String)
  | httpErr (status : Nat) (body : String) (statusText : String)
  | other (msg : String)
deriving DecidableEq

/-- Run-level exception: either the swallowed `AbortError` or an ordinary
`Error` carrying a message. -/
inductive RunErr where
  | abortErr (msg : String)
  | err (msg : String)
deriving DecidableEq

deriving instance DecidableEq for Except

/-- Raw search-provider result item, as the source casts it:
`{ title?: unknown; url?: unknown; content?: unknown }`. -/
structure RawResultItem where
  title : Option Json
  url : Option Json
  content : Option Json

/-- Raw search-provider response body, as the source casts it. -/
structure RawTavily where
  answer : Option Json
  results : Option (List RawResultItem)

/-- Normalized search result (`TavilySearchResult` in the source). -/
structure TavilySearchResult where
  title : String
  url : String
  content : String
deriving DecidableEq

/-- Normalized search response returned by `searchWithTavily`. -/
structure TavilyResponse where
  query : String
  answer : String
  results : List TavilySearchResult
deriving DecidableEq

/-- Field normalization used by `searchWithTavily`: keep a string value,
replace everything else (including an absent field) by the empty string. -/
def jStrOrEmpty : Option Json → String
  | some (.str s) => s
  | _ => ""

/-- Normalization of a 2xx search-provider response body performed by
`searchWithTavily` after `response.json()` (ai.ts lines 103-118). -/
def normalizeTavily (query : String) (raw : RawTavily) : TavilyResponse :=
  { query := query
    answer := jStrOrEmpty raw.answer
    results := (raw.results.getD []).map fun item =>
      { title := jStrOrEmpty item.title
        url := jStrOrEmpty item.url
        content := jStrOrEmpty item.content } }

/-- Error message built by `fetchChatCompletion` for a non-2xx response. -/
def apiErrorMsg (status : Nat) (body statusText : String) : String :=
  "API Error " ++ toString status ++ ": " ++ (if body = "" then statusText else body)

/-- Error message built by `searchWithTavily` for a non-2xx response. -/
def tavilyErrorMsg (status : Nat) (body statusText : String) : String :=
  "Tavily API Error " ++ toString status ++ ": " ++ (if body = "" then statusText else body)

/-- Model of `fetchChatCompletion`: the scripted network outcome is either a
parsed response body or an exception (`AbortError` propagates as such; a
non-2xx response raises `API Error <status>: <body || statusText>`). -/
def fetchChatCompletion (r : Except NetErr ChatResponse) : Except RunErr ChatResponse :=
  match r with
  | .ok v => .ok v
  | .error (.aborted m) => .error (.abortErr m)
  | .error (.httpErr s b st) => .error (.err (apiErrorMsg s b st))
  | .error (.other m) => .error (.err m)

/-- Model of `searchWithTavily`: on a 2xx response normalizes the body (the
query is echoed unchanged); a non-2xx response raises
`Tavily API Error <status>: <body || statusText>`; a rejected fetch
propagates. The api key only feeds the outgoing request body. -/
def searchWithTavily (apiKey : String) (query : String)
    (r : Except NetErr RawTavily) : Except RunErr TavilyResponse :=
  match r with
  | .ok raw => .ok (normalizeTavily query raw)
  | .error (.aborted m) => .error (.abortErr m)
  | .error (.httpErr s b st) => .error (.err (tavilyErrorMsg s b st))
  | .error (.other m) => .error (.err m)

/-- Phase of a tool-activity event (`AIToolEvent.phase`). -/
inductive ToolPhase where
  | start
  | success
  | error
  | info
deriving DecidableEq

/-- Tool-activity event delivered to the UI (`AIToolEvent` in the source). -/
structure AIToolEvent where
  phase : ToolPhase
  callId : String
  tool : String
  query : String
  message : Option String
deriving DecidableEq

/-- Shape of one chat-completion request: whether it streams and whether the
`tools` array is declared. Tool rounds send `stream := false,
toolsDeclared := true`; the forced-final request sends `stream := false,
toolsDeclared := false`; plain streaming sends `stream := true,
toolsDeclared := false`. -/
structure RequestInfo where
  stream : Bool
  toolsDeclared : Bool
deriving DecidableEq

/-- Observable event of one run: a chat-completion request going out, or one
of the caller-supplied callbacks firing (`onChunk`, `onDone`,
`onToolEvent`, `onError`). -/
inductive REvent where
  | request (r : RequestInfo)
  | chunk (s : String)
  | done
  | toolEvent (e : AIToolEvent)
  | errorCb (msg : String)
deriving DecidableEq

/-- Body of a successful streaming response: the byte chunks delivered by
consecutive `reader.read()` calls, then an optional terminal rejection
(for example an abort arriving mid-stream). -/
structure StreamBody where
  chunks : List String
  term : Option NetErr

/-- Scripted environment for one run: the reply to the i-th non-streaming
chat-completion request, the reply to the j-th search call, and the reply
to a streaming chat request. -/
structure NetEnv where
  chat : Nat → Except NetErr ChatResponse
  search : Nat → Except NetErr RawTavily
  stream : Except NetErr (Option StreamBody)

/-- Conversion of a network exception raised mid-run into the run-level
exception propagated out of the orchestration. -/
def netToRun : NetErr → RunErr
  | .aborted m => .abortErr m
  | .httpErr s b st => .err (apiErrorMsg s b st)
  | .other m => .err m

/-- Request shape of a plain streaming chat request. -/
def streamReqInfo : RequestInfo := ⟨true, false⟩

/-- Request shape of one tool round's chat request. -/
def toolRoundReqInfo : RequestInfo := ⟨false, true⟩

/-- Request shape of the forced-final chat request. -/
def forcedFinalReqInfo : RequestInfo := ⟨false, false⟩

/-- Action taken by `streamDirectChat` for one SSE line. -/
inductive LineAct where
  | skip
  | finish
  | emit (s : String)

/-- Per-line processing of `streamDirectChat` (ai.ts lines 164-183): ignore
blank lines and lines without the `data: ` prefix, treat the payload
`[DONE]` as terminal, otherwise parse the payload as JSON and extract
`choices[0].delta.content`, skipping malformed payloads silently. -/
def lineAction (line : String) : LineAct :=
  let trimmed := jsTrim line
  if trimmed = "" then .skip
  else if ¬ jsStartsWith trimmed "data: " then .skip
  else
    let data := strDrop trimmed 6
    if data = "[DONE]" then .finish
    else
      match Json.parse data with
      | none => .skip
      | some parsed =>
        match jStr (jField (jIndex (jField (some parsed) "choices") 0) "delta" |>
            (jField · "content")) with
        | some s => if s ≠ "" then .emit s else .skip
        | none => .skip

/-- Processing of one batch of complete lines; stops early (second component
`true`) when the terminal `[DONE]` payload is seen, after emitting the
completion callback. -/
def runLines : List String → List REvent × Bool
  | [] => ([], false)
  | l :: rest =>
    match lineAction l with
    | .skip => runLines rest
    | .finish => ([.done], true)
    | .emit s =>
      let r := runLines rest
      (.chunk s :: r.1, r.2)

/-- Read loop of `streamDirectChat`: each chunk is appended to the carry
buffer, complete lines are processed, the trailing partial line is carried
over; when the stream ends without `[DONE]` the completion callback still
fires, and a terminal rejection (for example an abort) propagates. -/
def streamChunksLoop : List String → String → Option NetErr → List REvent × Except RunErr Unit
  | [], _, term =>
    match term with
    | some e => ([], .error (netToRun e))
    | none => ([.done], .ok ())
  | c :: rest, buffer, term =>
    let parts := strSplitOnChar '\n' (buffer ++ c)
    let lines := parts.dropLast
    let buf := (parts.getLast?).getD ""
    let r := runLines lines
    if r.2 then (r.1, .ok ())
    else
      let r2 := streamChunksLoop rest buf term
      (r.1 ++ r2.1, r2.2)

/-- Model of `streamDirectChat` (ai.ts lines 121-187): issue a streaming
chat request, then decode the SSE byte stream; a missing body raises
`No response body`. -/
def streamDirectChat (resp : Except NetErr (Option StreamBody)) :
    List REvent × Except RunErr Unit :=
  match resp with
  | .error (.aborted m) => ([.request streamReqInfo], .error (.abortErr m))
  | .error (.httpErr s b st) => ([.request streamReqInfo], .error (.err (apiErrorMsg s b st)))
  | .error (.other m) => ([.request streamReqInfo], .error (.err m))
  | .ok none => ([.request streamReqInfo], .error (.err "No response body"))
  | .ok (some body) =>
    let r := streamChunksLoop body.chunks "" body.term
    (.request streamReqInfo :: r.1, r.2)

/-- Tool name displayed for an unsupported call:
`toolCall.function?.name || "unknown_tool"`. -/
def displayToolName (tc : ChatToolCall) : String :=
  match tc.fn with
  | some f => if f.name = "" then "unknown_tool" else f.name
  | none => "unknown_tool"

/-- Value of `toolCall.function?.name`. -/
def callFnName (tc : ChatToolCall) : Option String :=
  tc.fn.map (·.name)

/-- Argument string of a call whose name matched `search_web` (the source
reads `toolCall.function.arguments` after the name check succeeded). -/
def callArguments (tc : ChatToolCall) : String :=
  (tc.fn.map (·.arguments)).getD ""

/-- Query extraction of the tool loop (ai.ts lines 275-283): parse the
arguments as JSON and take the trimmed `query` field when it is a string;
any parse failure or non-string field leaves the query empty. -/
def parsedQuery (tc : ChatToolCall) : String :=
  match Json.parse (callArguments tc) with
  | some args =>
    match jStr (jField (some args) "query") with
    | some q => jsTrim q
    | none => ""
  | none => ""

/-- Outcome of processing one tool call of a round: the tool events and
transcript messages it produced, whether it consumed a search reply, and
an exception when the search threw (the one fatal path). -/
structure CallResult where
  events : List REvent
  msgs : List ChatMessage
  usedSearch : Bool
  fatal : Option RunErr

/-- JSON error payload appended to the transcript for a recoverable
tool-call failure. -/
def toolErrorContent (msg : String) : String :=
  Json.render (.obj [("error", .str msg)])

/-- Transcript payload appended for a successful search:
`JSON.stringify(toolResult)`. -/
def tavilyResultContent (t : TavilyResponse) : String :=
  Json.render (.obj
    [("query", .str t.query),
     ("answer", .str t.answer),
     ("results", .arr (t.results.map fun r =>
       .obj [("title", .str r.title), ("url", .str r.url), ("content", .str r.content)]))])

/-- Processing of one tool call in a round (ai.ts lines 258-332): a name
other than `search_web` or a missing query yields an error activity plus a
structured error transcript entry and the loop continues; otherwise the
search runs, succeeding into a success activity plus a result transcript
entry, or failing into an error activity plus a propagated exception. -/
def handleToolCall (searchResp : Except NetErr RawTavily) (apiKey : String)
    (tc : ChatToolCall) : CallResult :=
  if callFnName tc ≠ some "search_web" then
    { events := [.toolEvent ⟨.error, tc.id, displayToolName tc, "", some "Unsupported tool call."⟩]
      msgs := [.tool tc.id (toolErrorContent "Unsupported tool call.")]
      usedSearch := false
      fatal := none }
  else
    let query := parsedQuery tc
    if query = "" then
      { events := [.toolEvent ⟨.error, tc.id, "search_web", "", some "Missing query argument."⟩]
        msgs := [.tool tc.id (toolErrorContent "Missing query argument.")]
        usedSearch := false
        fatal := none }
    else
      match searchWithTavily apiKey query searchResp with
      | .ok result =>
        { events :=
            [.toolEvent ⟨.start, tc.id, "search_web", query, none⟩,
             .toolEvent ⟨.success, tc.id, "search_web", query,
               some ("Found " ++ toString result.results.length ++ " results.")⟩]
          msgs := [.tool tc.id (tavilyResultContent result)]
          usedSearch := true
          fatal := none }
      | .error e =>
        let m := match e with | .abortErr m => m | .err m => m
        { events :=
            [.toolEvent ⟨.start, tc.id, "search_web", query, none⟩,
             .toolEvent ⟨.error, tc.id, "search_web", query, some m⟩]
          msgs := []
          usedSearch := true
          fatal := some e }

/-- Processing of all tool calls of one round, in response order; a fatal
search failure stops the remaining calls and propagates. Returns the
events, the transcript entries, the next search-reply index and the
exception, if any. -/
def processToolCalls (env : NetEnv) (apiKey : String) :
    Nat → List ChatToolCall → List REvent × List ChatMessage × Nat × Option RunErr
  | sIdx, [] => ([], [], sIdx, none)
  | sIdx, tc :: rest =>
    let r := handleToolCall (env.search sIdx) apiKey tc
    let sIdx2 := if r.usedSearch then sIdx + 1 else sIdx
    match r.fatal with
    | some e => (r.events, r.msgs, sIdx2, some e)
    | none =>
      let r2 := processToolCalls env apiKey sIdx2 rest
      (r.events ++ r2.1, r.msgs ++ r2.2.1, r2.2.2.1, r2.2.2.2)

/-- Round-limit constant `MAX_TOOL_ROUNDS` (ai.ts line 34). -/
def MAX_TOOL_ROUNDS : Nat := 3

/-- System instruction opening the tool-loop transcript. -/
def toolSystemPrompt : String :=
  "You can call search_web when necessary, but keep it minimal and efficient. Usually 1-2 searches are enough. As soon as you have enough information, stop calling tools and return the final answer."

/-- Info activity emitted after a round's tool calls. -/
def generatingEvent (round : Nat) : AIToolEvent :=
  ⟨.info, "generating-" ++ toString round, "assistant", "", some "AI 正在根据搜索结果生成回答…"⟩

/-- Info activity emitted when the round budget is exhausted. -/
def roundLimitEvent : AIToolEvent :=
  ⟨.info, "tool-round-limit", "search_web", "", some "搜索完成，正在生成最终回答…"⟩

/-- Result of the bounded round loop: a final answer was emitted, an
exception was raised, or the round budget ran out with the transcript
accumulated so far. -/
inductive LoopResult where
  | completed
  | failed (e : RunErr)
  | exhausted (msgs : List ChatMessage)

/-- The `for` loop of `runWithTavilyTool` (ai.ts lines 207-350): each round
issues one non-streaming tool-declaring chat request; a response without
tool calls emits its text and completes; otherwise the calls are processed
and the loop continues. Returns the events, the number of chat and search
replies consumed, and how the loop ended. -/
def runRounds (env : NetEnv) (apiKey : String) :
    Nat → Nat → Nat → Nat → List ChatMessage → List REvent × Nat × Nat × LoopResult
  | 0, _, cIdx, sIdx, msgs => ([], cIdx, sIdx, .exhausted msgs)
  | fuel + 1, round, cIdx, sIdx, msgs =>
    match fetchChatCompletion (env.chat cIdx) with
    | .error e => ([.request toolRoundReqInfo], cIdx + 1, sIdx, .failed e)
    | .ok resp =>
      match respMessage resp with
      | none =>
        ([.request toolRoundReqInfo], cIdx + 1, sIdx,
         .failed (.err "Model returned empty response."))
      | some message =>
        let toolCalls := message.tool_calls.getD []
        if toolCalls.isEmpty then
          let content := extractTextContentOpt message.content
          (.request toolRoundReqInfo ::
             ((if content ≠ "" then [REvent.chunk content] else []) ++ [REvent.done]),
           cIdx + 1, sIdx, .completed)
        else
          let msgs2 := msgs ++ [.assistant (extractTextContentOpt message.content) toolCalls]
          let pr := processToolCalls env apiKey sIdx toolCalls
          match pr.2.2.2 with
          | some e =>
            (.request toolRoundReqInfo :: pr.1, cIdx + 1, pr.2.2.1, .failed e)
          | none =>
            let r2 :=
              runRounds env apiKey fuel (round + 1) (cIdx + 1) pr.2.2.1 (msgs2 ++ pr.2.1)
            (.request toolRoundReqInfo :: pr.1 ++ [.toolEvent (generatingEvent round)] ++ r2.1,
             r2.2.1, r2.2.2.1, r2.2.2.2)

/-- Model of `runWithTavilyTool` (ai.ts lines 189-391): run the bounded tool
loop; when the budget is exhausted emit an info activity, issue one
forced-final non-streaming request with no tools declared, emit its text
when non-empty, and otherwise fall back to plain streaming. -/
def runWithTavilyTool (config : AIConfig) (prompt : String) (env : NetEnv) :
    List REvent × Except RunErr Unit :=
  let msgs0 : List ChatMessage := [.system toolSystemPrompt, .user prompt]
  let tavilyApiKey := jsTrim config.tavilyApiKey
  let lr := runRounds env tavilyApiKey MAX_TOOL_ROUNDS 0 0 0 msgs0
  match lr.2.2.2 with
  | .completed => (lr.1, .ok ())
  | .failed e => (lr.1, .error e)
  | .exhausted _ =>
    let evs := lr.1 ++ [.toolEvent roundLimitEvent]
    match fetchChatCompletion (env.chat lr.2.1) with
    | .error e => (evs ++ [.request forcedFinalReqInfo], .error e)
    | .ok finalResponse =>
      let finalContent :=
        extractTextContentOpt ((respMessage finalResponse).bind (·.content))
      if finalContent ≠ "" then
        (evs ++ [.request forcedFinalReqInfo, .chunk finalContent, .done], .ok ())
      else
        let r2 := streamDirectChat env.stream
        (evs ++ [.request forcedFinalReqInfo] ++ r2.1, r2.2)

/-- Body of `streamChat` before its catch (ai.ts lines 402-407): a
configured (trimmed non-empty) search key selects the tool loop, otherwise
plain streaming. -/
def streamChatRun (config : AIConfig) (prompt : String) (env : NetEnv) :
    List REvent × Except RunErr Unit :=
  if jsTrim config.tavilyApiKey ≠ "" then runWithTavilyTool config prompt env
  else streamDirectChat env.stream

/-- Model of `streamChat` (ai.ts lines 393-412): run the orchestration and
catch: an `AbortError` is swallowed, every other exception is delivered to
the error callback. The result is the full observable event trace. -/
def streamChat (config : AIConfig) (prompt : String) (env : NetEnv) : List REvent :=
  let r := streamChatRun config prompt env
  match r.2 with
  | .error (.err m) => r.1 ++ [.errorCb m]
  | _ => r.1

/-!
Embedding of `src/components/AIAnalysis.tsx`.
-/

/-- Kind of a content segment (`ContentSegment.type` in the source). -/
inductive SegType where
  | text
  | think
deriving DecidableEq

/-- Content segment produced by `parseThinkBlocks`. -/
structure ContentSegment where
  type : SegType
  content : String
deriving DecidableEq

/-- Model of `String.prototype.indexOf` restricted to a found/not-found
index: first position where `pat` occurs in `cs`. -/
def findSub : List Char → List Char → Option Nat
  | [], pat => if isPrefixOfChars pat [] then some 0 else none
  | c :: rest, pat =>
    if isPrefixOfChars pat (c :: rest) then some 0
    else (findSub rest pat).map (· + 1)

/-- Opening reasoning delimiter. -/
def openTag : List Char := "<think>".toList

/-- Closing reasoning delimiter. -/
def closeTag : List Char := "</think>".toList

/-- The while loop of `parseThinkBlocks` (AIAnalysis.tsx lines 693-721),
with explicit fuel; every iteration with a matched close consumes at least
8 characters, so `length + 1` fuel always suffices. -/
def thinkGo : Nat → List Char → List ContentSegment
  | 0, _ => []
  | fuel + 1, remaining =>
    if remaining.isEmpty then []
    else
      match findSub remaining openTag with
      | none =>
        if jsTrim (String.mk remaining) ≠ "" then [⟨.text, String.mk remaining⟩] else []
      | some openIdx =>
        let before := remaining.take openIdx
        let beforeSegs : List ContentSegment :=
          if jsTrim (String.mk before) ≠ "" then [⟨.text, String.mk before⟩] else []
        let afterOpen := remaining.drop (openIdx + 7)
        match findSub afterOpen closeTag with
        | none => beforeSegs ++ [⟨.think, String.mk afterOpen⟩]
        | some closeRel =>
          beforeSegs ++ ⟨.think, String.mk (afterOpen.take closeRel)⟩ ::
            thinkGo fuel (afterOpen.drop (closeRel + 8))

/-- Model of `parseThinkBlocks`: segment accumulated text on the
`<think>` / `</think>` delimiter pair, emitting a trailing unterminated
reasoning segment while streaming. -/
def parseThinkBlocks (raw : String) : List ContentSegment :=
  thinkGo (raw.length + 1) raw.toList

/-- Helper for the global replacement of `\x7c\s+\x7c` by a line break:
after a `|`, detect a non-empty whitespace run followed by `|` and return
the input after that closing bar. -/
def splitWsThenBar (cs : List Char) : Option (List Char) :=
  let ws := cs.takeWhile jsRegexWs
  if ws.length = 0 then none
  else
    match cs.dropWhile jsRegexWs with
    | '|' :: tail => some tail
    | _ => none

/-- Model of `raw.replace(/\|\s+\|/g, "|\n|")` (AIAnalysis.tsx line 649):
left-to-right, non-overlapping; scanning resumes after each replaced
match. Fuel decreases per consumed character, so `length + 1` suffices. -/
def replaceBarWsBar : Nat → List Char → List Char
  | 0, cs => cs
  | _ + 1, [] => []
  | fuel + 1, c :: rest =>
    if c = '|' then
      match splitWsThenBar rest with
      | some tail => '|' :: '\n' :: '|' :: replaceBarWsBar fuel tail
      | none => '|' :: replaceBarWsBar fuel rest
    else c :: replaceBarWsBar fuel rest

/-- Matcher for one separator cell `\s*:?-+:?\s*` of the source's separator
regular expression; the greedy scan is exact here because no backtracking
alternative can succeed. -/
def isSepCell (s : String) : Bool :=
  let cs := s.toList.dropWhile jsRegexWs
  let cs := match cs with
    | ':' :: r => r
    | _ => cs
  let dashes := cs.takeWhile (· == '-')
  let cs := cs.dropWhile (· == '-')
  if dashes.length = 0 then false
  else
    let cs := match cs with
      | ':' :: r => r
      | _ => cs
    cs.dropWhile jsRegexWs = []

/-- Model of `isMarkdownTableSeparator` (AIAnalysis.tsx lines 635-637): the
trimmed line must be `|` followed by at least two separator cells joined
by `|`, with an optional trailing `|`. -/
def isMarkdownTableSeparator (line : String) : Bool :=
  let t := jsTrim line
  match strSplitOnChar '|' t with
  | "" :: rest =>
    let cells := if rest.getLast? = some "" then rest.dropLast else rest
    decide (cells.length ≥ 2) && cells.all isSepCell
  | _ => false

/-- Model of `buildMarkdownSeparatorFromHeader` (AIAnalysis.tsx lines
639-646): split the header on `|`, trim, drop empties; fewer than two
columns yields the empty string, otherwise one `---` cell per column. -/
def buildMarkdownSeparatorFromHeader (headerLine : String) : String :=
  let columns := ((strSplitOnChar '|' headerLine).map jsTrim).filter (· ≠ "")
  if columns.length < 2 then ""
  else "| " ++ strIntercalate " | " (columns.map fun _ => "---") ++ " |"

/-- Line loop of `normalizeMarkdownTables` (AIAnalysis.tsx lines 654-688),
with the `inTableBody` flag threaded through. -/
def normLoop : List String → Bool → List String
  | [], _ => []
  | line :: rest, inTableBody =>
    let isTableRow := jsStartsWith (jsTrim line) "|"
    let isSep := isMarkdownTableSeparator line
    if ¬ isTableRow then line :: normLoop rest false
    else if inTableBody && isSep then normLoop rest inTableBody
    else if isSep then line :: normLoop rest true
    else if ¬ inTableBody then
      match rest with
      | next :: _ =>
        if jsStartsWith (jsTrim next) "|" && ¬ isMarkdownTableSeparator next then
          let separator := buildMarkdownSeparatorFromHeader line
          if separator ≠ "" then line :: separator :: normLoop rest true
          else line :: normLoop rest inTableBody
        else line :: normLoop rest inTableBody
      | [] => line :: normLoop rest inTableBody
    else line :: normLoop rest inTableBody

/-- Model of `normalizeMarkdownTables` (AIAnalysis.tsx lines 648-691):
split run-together `| |` row boundaries into line breaks, then synthesize
a missing separator row after each table header and drop redundant
separator rows inside a table body. -/
def normalizeMarkdownTables (raw : String) : String :=
  let expanded := String.mk (replaceBarWsBar (raw.length + 1) raw.toList)
  strIntercalate "\n" (normLoop (strSplitOnChar '\n' expanded) false)

/-- Status of a tool activity entry (`ToolStatus` in the source). -/
inductive ToolStatus where
  | running
  | success
  | error
  | info
deriving DecidableEq

/-- UI-facing tool activity entry (`AIToolActivity` in the source). -/
structure AIToolActivity where
  callId : String
  tool : String
  query : String
  status : ToolStatus
  message : Option String
deriving DecidableEq

/-- Status derived from an event phase (AIAnalysis.tsx lines 519-526). -/
def nextStatus : ToolPhase → ToolStatus
  | .start => .running
  | .success => .success
  | .info => .info
  | .error => .error

/-- Activity entry created for an event with a fresh call identifier. -/
def newActivity (e : AIToolEvent) : AIToolActivity :=
  ⟨e.callId, e.tool, e.query, nextStatus e.phase, e.message⟩

/-- In-place update of one list position, modelling
`const next = [...prev]; next[index] = ...`. -/
def modifyAt {α : Type} : List α → Nat → (α → α) → List α
  | [], _, _ => []
  | x :: xs, 0, f => f x :: xs
  | x :: xs, n + 1, f => x :: modifyAt xs n f

/-- Model of the `handleToolEvent` state update (AIAnalysis.tsx lines
516-550): the first entry with the event's call identifier is updated in
place (an empty event query keeps the stored query), and a fresh call
identifier appends a new entry. -/
def handleToolEvent (prev : List AIToolActivity) (e : AIToolEvent) : List AIToolActivity :=
  match prev.findIdx? (fun item => item.callId == e.callId) with
  | none => prev ++ [newActivity e]
  | some index =>
    modifyAt prev index fun old =>
      { old with
        status := nextStatus e.phase
        message := e.message
        query := if e.query = "" then old.query else e.query }

/-!
Trace observation helpers.
-/

/-- Predicate matching chat requests of one shape. -/
def isReqShape (st tl : Bool) : REvent → Bool
  | .request r => r.stream == st && r.toolsDeclared == tl
  | _ => false

/-- Number of tool-round chat requests (non-streaming, tools declared). -/
def countToolRoundReq (evs : List REvent) : Nat :=
  evs.countP (isReqShape false true)

/-- Number of forced-final chat requests (non-streaming, no tools). -/
def countForcedFinalReq (evs : List REvent) : Nat :=
  evs.countP (isReqShape false false)

/-- Arguments of the chunk callbacks in trace order. -/
def chunkTexts (evs : List REvent) : List String :=
  evs.filterMap fun e =>
    match e with
    | .chunk s => some s
    | _ => none

/-- Concatenation of all chunk-callback arguments. -/
def chunkConcat (evs : List REvent) : String :=
  String.join (chunkTexts evs)

/-- Number of completion callbacks in the trace. -/
def countDone (evs : List REvent) : Nat :=
  evs.countP fun e =>
    match e with
    | .done => true
    | _ => false

/-- Number of chunk callbacks in the trace. -/
def countChunk (evs : List REvent) : Nat :=
  evs.countP fun e =>
    match e with
    | .chunk _ => true
    | _ => false

/-- Number of error callbacks in the trace. -/
def countErrorCb (evs : List REvent) : Nat :=
  evs.countP fun e =>
    match e with
    | .errorCb _ => true
    | _ => false

/-- The chunk, completion and error callback events of a trace, in order
(requests and tool-activity events are not callbacks). -/
def callbackEvents (evs : List REvent) : List REvent :=
  evs.filter fun e =>
    match e with
    | .chunk _ => true
    | .done => true
    | .errorCb _ => true
    | _ => false

/-!
Predicates and concrete inputs used by the claim theorems.
-/

/-- Decidable check that a scripted chat reply is a successful response
whose first choice carries a message with at least one tool call. -/
def hasToolCallResp : Except NetErr ChatResponse → Bool
  | .ok resp =>
    match respMessage resp with
    | some msg => ¬ (msg.tool_calls.getD []).isEmpty
    | none => false
  | .error _ => false

/-- Environment in which every chat-completion request yields a successful
response containing at least one tool call. -/
def allChatToolCallResponses (env : NetEnv) : Prop :=
  ∀ i, hasToolCallResp (env.chat i) = true

/-- Environment in which every search invocation yields a 2xx response. -/
def allSearchOk (env : NetEnv) : Prop :=
  ∀ j, ∃ raw, env.search j = .ok raw

/-- Configuration with a configured search key. -/
def cfgWithKey : AIConfig := ⟨"https://api.example.com", "key", "model", "tmpl", "tavily-key"⟩

/-- Configuration without a search key. -/
def cfgNoKey : AIConfig := ⟨"https://api.example.com", "key", "model", "tmpl", ""⟩

/-- Chat response carrying one well-formed `search_web` tool call. -/
def toolCallResp : ChatResponse :=
  ⟨some [⟨some ⟨none, some [⟨"call-1", some ⟨"search_web", "\x7b\"query\":\"x\"\x7d"⟩⟩]⟩⟩]⟩

/-- A 2xx search-provider body with one fully-typed result. -/
def rawSearchOk : RawTavily :=
  ⟨some (.str "A"), some [⟨some (.str "T"), some (.str "U"), some (.str "C")⟩]⟩

/-- Environment whose chat endpoint always asks for a search and whose
search endpoint always succeeds. -/
def envAllToolCalls : NetEnv :=
  ⟨fun _ => .ok toolCallResp, fun _ => .ok rawSearchOk, .ok (some ⟨[], none⟩)⟩

/-- Environment whose chat endpoint always asks for a search and whose
search endpoint rejects with HTTP 500. -/
def envSearchFail : NetEnv :=
  ⟨fun _ => .ok toolCallResp, fun _ => .error (.httpErr 500 "" "Internal Server Error"),
   .ok (some ⟨[], none⟩)⟩

/-- Environment whose first chat request is aborted. -/
def envChatAborted : NetEnv :=
  ⟨fun _ => .error (.aborted "signal is aborted without reason"),
   fun _ => .ok rawSearchOk, .ok (some ⟨[], none⟩)⟩

/-- Environment whose streaming request is aborted. -/
def envStreamAborted : NetEnv :=
  ⟨fun _ => .ok toolCallResp, fun _ => .ok rawSearchOk,
   .error (.aborted "signal is aborted without reason")⟩

/-- Environment for the no-search-key streaming scenario: three
newline-terminated SSE frames and a terminal `[DONE]`. -/
def envHelloWorld : NetEnv :=
  ⟨fun _ => .error (.other "unused"), fun _ => .error (.other "unused"),
   .ok (some
     ⟨["data: \x7b\"choices\":[\x7b\"delta\":\x7b\"content\":\"Hello\"\x7d\x7d]\x7d\n",
       "data: \x7b\"choices\":[\x7b\"delta\":\x7b\"content\":\" world\"\x7d\x7d]\x7d\n",
       "data: [DONE]\n"], none⟩)⟩

/-- Chat response whose message has no tool calls and an empty string
content. -/
def emptyContentResp : ChatResponse :=
  ⟨some [⟨some ⟨some (.str ""), none⟩⟩]⟩

/-- Chat response carrying no message at all. -/
def noMessageResp : ChatResponse :=
  ⟨some []⟩

/-- Environment whose first chat response has an empty final answer. -/
def envEmptyContent : NetEnv :=
  ⟨fun _ => .ok emptyContentResp, fun _ => .ok rawSearchOk, .ok (some ⟨[], none⟩)⟩

/-- Environment whose first chat response carries no message. -/
def envNoMessage : NetEnv :=
  ⟨fun _ => .ok noMessageResp, fun _ => .ok rawSearchOk, .ok (some ⟨[], none⟩)⟩

/-- Tool call invoking an undeclared tool. -/
def tcBadName : ChatToolCall := ⟨"call-bad", some ⟨"other_tool", "\x7b\x7d"⟩⟩

/-- Tool call naming `search_web` with unparseable arguments. -/
def tcBadArgs : ChatToolCall := ⟨"call-args", some ⟨"search_web", "not json"⟩⟩

/-- A 2xx search-provider body carrying six result entries. -/
def rawSixResults : RawTavily :=
  ⟨some (.str "ans"),
   some [⟨some (.str "t1"), some (.str "u1"), some (.str "c1")⟩,
         ⟨some (.str "t2"), some (.str "u2"), some (.str "c2")⟩,
         ⟨some (.str "t3"), some (.str "u3"), some (.str "c3")⟩,
         ⟨some (.str "t4"), some (.str "u4"), some (.str "c4")⟩,
         ⟨some (.str "t5"), some (.str "u5"), some (.str "c5")⟩,
         ⟨some (.str "t6"), some (.str "u6"), some (.str "c6")⟩]⟩

/-- A 2xx search-provider body with missing and non-string fields. -/
def rawMixedFields : RawTavily :=
  ⟨some (.num "7"), some [⟨none, some (.str "u"), some (.bool true)⟩]⟩

/-- Sample activity list used by witnesses. -/
def actListW : List AIToolActivity :=
  [⟨"a", "search_web", "q1", .running, none⟩]

/-- Tool event matching the stored call identifier `a`. -/
def evMatchW : AIToolEvent := ⟨.success, "a", "search_web", "q1", some "Found 1 results."⟩

/-- Tool event with a fresh call identifier `b`. -/
def evFreshW : AIToolEvent := ⟨.start, "b", "search_web", "q2", none⟩

/-!
Helper lemmas.
-/

theorem thinkGo_no_open (fuel : Nat) (cs : List Char) (h : findSub cs openTag = none) :
    thinkGo (fuel + 1) cs =
      if jsTrim (String.mk cs) ≠ "" then [⟨.text, String.mk cs⟩] else [] := by
  cases cs with
  | nil => simp [thinkGo, jsTrim, jsTrimList]
  | cons c rest => simp [thinkGo, h]

/-!
Claim C3, C4, C5, C6, C8.
-/

/-- C3: with no search key configured and the endpoint streaming the frames
`data: {"choices":[{"delta":{"content":"Hello"}}]}`,
`data: {"choices":[{"delta":{"content":" world"}}]}` and `data: [DONE]`,
the concatenation of all chunk-callback arguments is exactly `Hello world`
and the completion callback fires exactly once. -/
theorem c3_stream_scenario :
    chunkConcat (streamChat cfgNoKey "prompt" envHelloWorld) = "Hello world" ∧
    countDone (streamChat cfgNoKey "prompt" envHelloWorld) = 1 := by decide

/-- C4 counterexample: the input `" A"` contains no `<think>` delimiter and
is not blank, yet the single segment returned carries the untrimmed body
`" A"`, not the trimmed input `"A"` the claim states. -/
theorem c4_counterexample :
    findSub " A".toList openTag = none ∧ jsTrim " A" ≠ "" ∧
    parseThinkBlocks " A" ≠ [⟨.text, jsTrim " A"⟩] := by decide

/-- C4 (amended): for every input text containing zero occurrences of
`<think>`, the segmenter returns exactly one text segment whose body is
the input unchanged (untrimmed), or zero segments when the input is blank. -/
theorem c4_no_delimiter (raw : String) (h : findSub raw.toList openTag = none) :
    (jsTrim raw = "" → parseThinkBlocks raw = []) ∧
    (jsTrim raw ≠ "" → parseThinkBlocks raw = [⟨.text, raw⟩]) := by
  have hg := thinkGo_no_open raw.length raw.toList h
  have hmk : String.mk raw.toList = raw := rfl
  rw [hmk] at hg
  unfold parseThinkBlocks
  rw [hg]
  by_cases hz : jsTrim raw = "" <;> simp [hz]

theorem c4_witness :
    parseThinkBlocks "hello" = [⟨.text, "hello"⟩] ∧ parseThinkBlocks "  " = [] := by
  exact ⟨(c4_no_delimiter "hello" (by decide)).2 (by decide),
         (c4_no_delimiter "  " (by decide)).1 (by decide)⟩

/-- C5: for the input `A<think>B` (opening delimiter with no matching
close), the segmenter yields a text segment `A` followed by a reasoning
segment `B`, the trailing reasoning segment being emitted although it is
unterminated. -/
theorem c5_unterminated_think :
    parseThinkBlocks "A<think>B" = [⟨.text, "A"⟩, ⟨.think, "B"⟩] := by decide

/-- C6 counterexample: the run-together table text does not normalize to a
separator row written `|---|---|`; the synthesized separator row is
space-padded. -/
theorem c6_counterexample :
    strSplitOnChar '\n' (normalizeMarkdownTables "|A|B| |1|2|") ≠
      ["|A|B|", "|---|---|", "|1|2|"] := by decide

/-- C6 (amended): normalizing `|A|B| |1|2|` yields exactly three lines: the
header `|A|B|`, one synthesized separator row `| --- | --- |` with one
`---` cell per header column, and the data row `|1|2|`. -/
theorem c6_table_normalization :
    strSplitOnChar '\n' (normalizeMarkdownTables "|A|B| |1|2|") =
      ["|A|B|", "| --- | --- |", "|1|2|"] := by decide

/-- C8 counterexample: a 2xx provider response carrying six result entries
is normalized to six results; the adapter does not truncate to five. -/
theorem c8_counterexample :
    (normalizeTavily "q" rawSixResults).results.length = 6 ∧
    ¬ (normalizeTavily "q" rawSixResults).results.length ≤ 5 := by decide

/-- C8 (amended): for every 2xx search-provider response the adapter echoes
the query unchanged, keeps the provider answer when it is a string and
uses the empty string otherwise, normalizes each result's fields the same
way, and returns exactly one entry per provider result entry (the request
caps the provider at five results, the adapter itself does not truncate). -/
theorem c8_normalization (q : String) (raw : RawTavily) :
    (normalizeTavily q raw).query = q ∧
    (normalizeTavily q raw).answer =
      (match raw.answer with | some (Json.str s) => s | _ => "") ∧
    (normalizeTavily q raw).results.length = (raw.results.getD []).length ∧
    ∀ (i : Nat) (hi : i < (normalizeTavily q raw).results.length)
      (hr : i < (raw.results.getD []).length),
      ((normalizeTavily q raw).results.get ⟨i, hi⟩).title =
        (match ((raw.results.getD []).get ⟨i, hr⟩).title with
         | some (Json.str s) => s | _ => "") ∧
      ((normalizeTavily q raw).results.get ⟨i, hi⟩).url =
        (match ((raw.results.getD []).get ⟨i, hr⟩).url with
         | some (Json.str s) => s | _ => "") ∧
      ((normalizeTavily q raw).results.get ⟨i, hi⟩).content =
        (match ((raw.results.getD []).get ⟨i, hr⟩).content with
         | some (Json.str s) => s | _ => "") := by
  refine ⟨rfl, ?_, ?_, ?_⟩
  · match h : raw.answer with
    | none => simp [normalizeTavily, jStrOrEmpty, h]
    | some (Json.str s) => simp [normalizeTavily, jStrOrEmpty, h]
    | some Json.null => simp [normalizeTavily, jStrOrEmpty, h]
    | some (Json.bool b) => simp [normalizeTavily, jStrOrEmpty, h]
    | some (Json.num n) => simp [normalizeTavily, jStrOrEmpty, h]
    | some (Json.arr xs) => simp [normalizeTavily, jStrOrEmpty, h]
    | some (Json.obj ms) => simp [normalizeTavily, jStrOrEmpty, h]
  · simp [normalizeTavily]
  · intro i hi hr
    refine ⟨?_, ?_, ?_⟩ <;>
      simp [normalizeTavily, List.get_map, jStrOrEmpty]

theorem c8_witness :
    (normalizeTavily "q" rawMixedFields).query = "q" ∧
    (normalizeTavily "q" rawMixedFields).answer = "" ∧
    (normalizeTavily "q" rawMixedFields).results.length = 1 ∧
    ((normalizeTavily "q" rawMixedFields).results.get ⟨0, by decide⟩).title = "" ∧
    ((normalizeTavily "q" rawMixedFields).results.get ⟨0, by decide⟩).url = "u" ∧
    ((normalizeTavily "q" rawMixedFields).results.get ⟨0, by decide⟩).content = "" := by
  have h := c8_normalization "q" rawMixedFields
  have hi := h.2.2.2 0 (by decide) (by decide)
  exact ⟨h.1, h.2.1.trans (by decide), h.2.2.1.trans (by decide),
    hi.1.trans (by decide), hi.2.1.trans (by decide), hi.2.2.trans (by decide)⟩

/-!
Claim C9.
-/

theorem modifyAt_map_eq {α β : Type} (f : α → α) (g : α → β)
    (hfg : ∀ a, g (f a) = g a) :
    ∀ (l : List α) (i : Nat), (modifyAt l i f).map g = l.map g
  | [], _ => rfl
  | x :: xs, 0 => by simp [modifyAt, hfg]
  | x :: xs, n + 1 => by simp [modifyAt, modifyAt_map_eq f g hfg xs n]

theorem handleToolEvent_update (prev : List AIToolActivity) (e : AIToolEvent)
    (h : e.callId ∈ prev.map AIToolActivity.callId) :
    (handleToolEvent prev e).map AIToolActivity.callId =
      prev.map AIToolActivity.callId := by
  unfold handleToolEvent
  cases hf : prev.findIdx? (fun item => item.callId == e.callId) with
  | none =>
    exfalso
    rw [List.findIdx?_eq_none_iff] at hf
    obtain ⟨a, ha, hac⟩ := List.mem_map.mp h
    have := hf a ha
    simp [hac] at this
  | some i =>
    show (modifyAt prev i fun old =>
        { old with
          status := nextStatus e.phase
          message := e.message
          query := if e.query = "" then old.query else e.query }).map AIToolActivity.callId =
      prev.map AIToolActivity.callId
    exact modifyAt_map_eq
      (fun old =>
        { old with
          status := nextStatus e.phase
          message := e.message
          query := if e.query = "" then old.query else e.query })
      AIToolActivity.callId (fun a => rfl) prev i

theorem handleToolEvent_append (prev : List AIToolActivity) (e : AIToolEvent)
    (h : e.callId ∉ prev.map AIToolActivity.callId) :
    handleToolEvent prev e = prev ++ [newActivity e] := by
  have hf : prev.findIdx? (fun item => item.callId == e.callId) = none := by
    rw [List.findIdx?_eq_none_iff]
    intro x hx
    simp only [beq_eq_false_iff_ne, ne_eq]
    intro hc
    exact h (List.mem_map.mpr ⟨x, hx, hc⟩)
  unfold handleToolEvent
  rw [hf]

theorem handleToolEvent_nodup (prev : List AIToolActivity) (e : AIToolEvent)
    (h : (prev.map AIToolActivity.callId).Nodup) :
    ((handleToolEvent prev e).map AIToolActivity.callId).Nodup := by
  by_cases hm : e.callId ∈ prev.map AIToolActivity.callId
  · rw [handleToolEvent_update prev e hm]; exact h
  · rw [handleToolEvent_append prev e hm]
    rw [List.map_append]
    rw [List.nodup_append]
    refine ⟨h, List.nodup_singleton _, ?_⟩
    intro a ha hb
    simp only [List.map_cons, List.map_nil, List.mem_singleton] at hb
    subst hb
    exact hm ha

theorem foldl_handleToolEvent_nodup :
    ∀ (events : List AIToolEvent) (prev : List AIToolActivity),
      (prev.map AIToolActivity.callId).Nodup →
      ((events.foldl handleToolEvent prev).map AIToolActivity.callId).Nodup
  | [], prev, h => h
  | e :: rest, prev, h =>
    foldl_handleToolEvent_nodup rest (handleToolEvent prev e)
      (handleToolEvent_nodup prev e h)

/-- C9: the activity list built from any delivered event sequence never
contains two entries with the same call identifier; an event matching an
existing entry updates it in place, preserving every entry's position, and
an event with a fresh identifier appends exactly one entry at the end, so
entries stay in insertion order. -/
theorem c9_tool_activities :
    (∀ events : List AIToolEvent,
      ((events.foldl handleToolEvent []).map AIToolActivity.callId).Nodup) ∧
    (∀ (prev : List AIToolActivity) (e : AIToolEvent),
      e.callId ∈ prev.map AIToolActivity.callId →
      (handleToolEvent prev e).map AIToolActivity.callId =
        prev.map AIToolActivity.callId) ∧
    (∀ (prev : List AIToolActivity) (e : AIToolEvent),
      e.callId ∉ prev.map AIToolActivity.callId →
      handleToolEvent prev e = prev ++ [newActivity e]) := by
  exact ⟨fun events => foldl_handleToolEvent_nodup events [] List.nodup_nil,
         handleToolEvent_update, handleToolEvent_append⟩

theorem c9_witness :
    ((([evFreshW, evMatchW].foldl handleToolEvent []).map AIToolActivity.callId).Nodup) ∧
    (handleToolEvent actListW evMatchW).map AIToolActivity.callId =
      actListW.map AIToolActivity.callId ∧
    handleToolEvent actListW evFreshW = actListW ++ [newActivity evFreshW] := by
  exact ⟨c9_tool_activities.1 [evFreshW, evMatchW],
         c9_tool_activities.2.1 actListW evMatchW (by decide),
         c9_tool_activities.2.2 actListW evFreshW (by decide)⟩

/-!
Event-shape lemmas for the orchestration traces.
-/

theorem runLines_events_shape :
    ∀ (lines : List String) (e : REvent), e ∈ (runLines lines).1 →
      (∃ s, e = REvent.chunk s) ∨ e = REvent.done := by
  intro lines
  induction lines with
  | nil => intro e he; simp [runLines] at he
  | cons l rest ih =>
    intro e he
    simp only [runLines] at he
    split at he
    · exact ih e he
    · simp at he; right; exact he
    · rcases List.mem_cons.mp he with h1 | h2
      · left; exact ⟨_, h1⟩
      · exact ih e h2

theorem streamChunksLoop_events_shape :
    ∀ (chunks : List String) (buffer : String) (term : Option NetErr) (e : REvent),
      e ∈ (streamChunksLoop chunks buffer term).1 →
      (∃ s, e = REvent.chunk s) ∨ e = REvent.done := by
  intro chunks
  induction chunks with
  | nil =>
    intro buffer term e he
    simp only [streamChunksLoop] at he
    split at he
    · simp at he
    · simp at he; right; exact he
  | cons c rest ih =>
    intro buffer term e he
    simp only [streamChunksLoop] at he
    split at he
    · exact runLines_events_shape _ e he
    · rcases List.mem_append.mp he with h1 | h2
      · exact runLines_events_shape _ e h1
      · exact ih _ _ e h2

theorem streamDirectChat_events_shape (resp : Except NetErr (Option StreamBody))
    (e : REvent) (he : e ∈ (streamDirectChat resp).1) :
    e = REvent.request streamReqInfo ∨ (∃ s, e = REvent.chunk s) ∨ e = REvent.done := by
  match resp with
  | .error (.aborted m) => simp [streamDirectChat] at he; left; exact he
  | .error (.httpErr s b st) => simp [streamDirectChat] at he; left; exact he
  | .error (.other m) => simp [streamDirectChat] at he; left; exact he
  | .ok none => simp [streamDirectChat] at he; left; exact he
  | .ok (some body) =>
    simp only [streamDirectChat] at he
    rcases List.mem_cons.mp he with h1 | h2
    · left; exact h1
    · right; exact streamChunksLoop_events_shape _ _ _ e h2

theorem handleToolCall_events_shape (sr : Except NetErr RawTavily) (k : String)
    (tc : ChatToolCall) (e : REvent) (he : e ∈ (handleToolCall sr k tc).events) :
    ∃ te, e = REvent.toolEvent te := by
  simp only [handleToolCall] at he
  split at he
  · simp at he; exact ⟨_, he⟩
  · split at he
    · simp at he; exact ⟨_, he⟩
    · split at he
      · simp at he
        rcases he with he | he
        · exact ⟨_, he⟩
        · exact ⟨_, he⟩
      · simp at he
        rcases he with he | he
        · exact ⟨_, he⟩
        · exact ⟨_, he⟩

theorem processToolCalls_events_shape (env : NetEnv) (k : String) :
    ∀ (tcs : List ChatToolCall) (sIdx : Nat) (e : REvent),
      e ∈ (processToolCalls env k sIdx tcs).1 → ∃ te, e = REvent.toolEvent te := by
  intro tcs
  induction tcs with
  | nil => intro sIdx e he; simp [processToolCalls] at he
  | cons tc rest ih =>
    intro sIdx e he
    simp only [processToolCalls] at he
    split at he
    · exact handleToolCall_events_shape _ _ _ e he
    · rcases List.mem_append.mp he with h1 | h2
      · exact handleToolCall_events_shape _ _ _ e h1
      · exact ih _ e h2

theorem runRounds_events_shape (env : NetEnv) (k : String) :
    ∀ (fuel round cIdx sIdx : Nat) (msgs : List ChatMessage) (e : REvent),
      e ∈ (runRounds env k fuel round cIdx sIdx msgs).1 →
      e = REvent.request toolRoundReqInfo ∨ (∃ te, e = REvent.toolEvent te) ∨
        (∃ s, e = REvent.chunk s) ∨ e = REvent.done := by
  intro fuel
  induction fuel with
  | zero => intro round cIdx sIdx msgs e he; simp [runRounds] at he
  | succ fuel ih =>
    intro round cIdx sIdx msgs e he
    simp only [runRounds] at he
    split at he
    · simp at he; left; exact he
    · split at he
      · simp at he; left; exact he
      · split at he
        · rcases List.mem_cons.mp he with h1 | h2
          · left; exact h1
          · rcases List.mem_append.mp h2 with h3 | h4
            · split at h3
              · simp at h3; right; right; left; exact ⟨_, h3⟩
              · simp at h3
            · simp at h4; right; right; right; exact h4
        · split at he
          · rcases List.mem_cons.mp he with h1 | h2
            · left; exact h1
            · right; left; exact processToolCalls_events_shape env k _ _ e h2
          · rcases List.mem_cons.mp he with h1 | h2
            · left; exact h1
            · rcases List.mem_append.mp h2 with h3 | h4
              · rcases List.mem_append.mp h3 with h5 | h6
                · right; left; exact processToolCalls_events_shape env k _ _ e h5
                · simp at h6; right; left; exact ⟨_, h6⟩
              · exact ih _ _ _ _ e h4

theorem runWithTavilyTool_events_shape (config : AIConfig) (prompt : String)
    (env : NetEnv) (e : REvent) (he : e ∈ (runWithTavilyTool config prompt env).1) :
    (∃ r, e = REvent.request r) ∨ (∃ te, e = REvent.toolEvent te) ∨
      (∃ s, e = REvent.chunk s) ∨ e = REvent.done := by
  simp only [runWithTavilyTool] at he
  split at he
  · rcases runRounds_events_shape env _ _ _ _ _ _ e he with h | h | h | h
    · left; exact ⟨_, h⟩
    · right; left; exact h
    · right; right; left; exact h
    · right; right; right; exact h
  · rcases runRounds_events_shape env _ _ _ _ _ _ e he with h | h | h | h
    · left; exact ⟨_, h⟩
    · right; left; exact h
    · right; right; left; exact h
    · right; right; right; exact h
  · split at he
    · rcases List.mem_append.mp he with h1 | h2
      · rcases List.mem_append.mp h1 with h3 | h4
        · rcases runRounds_events_shape env _ _ _ _ _ _ e h3 with h | h | h | h
          · left; exact ⟨_, h⟩
          · right; left; exact h
          · right; right; left; exact h
          · right; right; right; exact h
        · simp at h4; right; left; exact ⟨_, h4⟩
      · simp at h2; left; exact ⟨_, h2⟩
    · split at he
      · rcases List.mem_append.mp he with h1 | h2
        · rcases List.mem_append.mp h1 with h3 | h4
          · rcases runRounds_events_shape env _ _ _ _ _ _ e h3 with h | h | h | h
            · left; exact ⟨_, h⟩
            · right; left; exact h
            · right; right; left; exact h
            · right; right; right; exact h
          · simp at h4; right; left; exact ⟨_, h4⟩
        · simp at h2
          rcases h2 with h2 | h2 | h2
          · left; exact ⟨_, h2⟩
          · right; right; left; exact ⟨_, h2⟩
          · right; right; right; exact h2
      · rcases List.mem_append.mp he with h1 | h2
        · rcases List.mem_append.mp h1 with h3 | h4
          · rcases List.mem_append.mp h3 with h5 | h6
            · rcases runRounds_events_shape env _ _ _ _ _ _ e h5 with h | h | h | h
              · left; exact ⟨_, h⟩
              · right; left; exact h
              · right; right; left; exact h
              · right; right; right; exact h
            · simp at h6; right; left; exact ⟨_, h6⟩
          · simp at h4; left; exact ⟨_, h4⟩
        · rcases streamDirectChat_events_shape _ e h2 with h | h | h
          · left; exact ⟨_, h⟩
          · right; right; left; exact h
          · right; right; right; exact h

theorem streamChatRun_no_errorCb (config : AIConfig) (prompt : String) (env : NetEnv) :
    countErrorCb (streamChatRun config prompt env).1 = 0 := by
  rw [countErrorCb, List.countP_eq_zero]
  intro a ha
  unfold streamChatRun at ha
  split at ha
  · rcases runWithTavilyTool_events_shape _ _ _ a ha with ⟨r, rfl⟩ | ⟨te, rfl⟩ | ⟨s, rfl⟩ | rfl <;>
      simp
  · rcases streamDirectChat_events_shape _ a ha with rfl | ⟨s, rfl⟩ | rfl <;> simp

/-!
Claim C2.
-/

theorem runRounds_fetch_error (env : NetEnv) (k : String) (fuel round cIdx sIdx : Nat)
    (msgs : List ChatMessage) (e : RunErr)
    (h : fetchChatCompletion (env.chat cIdx) = .error e) :
    runRounds env k (fuel + 1) round cIdx sIdx msgs =
      ([.request toolRoundReqInfo], cIdx + 1, sIdx, .failed e) := by
  unfold runRounds
  rw [h]

/-- C2: the abort exception is swallowed: whenever a run ends in an abort,
the error callback never fires (unlike every other failure, which is
delivered to exactly it); and a run whose very first network operation is
aborted produces no chunk, completion, or error callback at all, on the
tool path and on the plain-streaming path alike. -/
theorem c2_abort_suppression :
    (∀ (config : AIConfig) (prompt : String) (env : NetEnv) (m : String),
      (streamChatRun config prompt env).2 = .error (.abortErr m) →
      countErrorCb (streamChat config prompt env) = 0) ∧
    (∀ (config : AIConfig) (prompt : String) (env : NetEnv) (m : String),
      jsTrim config.tavilyApiKey ≠ "" → env.chat 0 = .error (.aborted m) →
      callbackEvents (streamChat config prompt env) = []) ∧
    (∀ (config : AIConfig) (prompt : String) (env : NetEnv) (m : String),
      jsTrim config.tavilyApiKey = "" → env.stream = .error (.aborted m) →
      callbackEvents (streamChat config prompt env) = []) ∧
    (∀ (config : AIConfig) (prompt : String) (env : NetEnv) (m : String),
      (streamChatRun config prompt env).2 = .error (.err m) →
      streamChat config prompt env = (streamChatRun config prompt env).1 ++ [.errorCb m]) := by
  refine ⟨?_, ?_, ?_, ?_⟩
  · intro config prompt env m h
    unfold streamChat
    simp only [h]
    exact streamChatRun_no_errorCb config prompt env
  · intro config prompt env m hkey habort
    have hrr := runRounds_fetch_error env (jsTrim config.tavilyApiKey) 2 0 0 0
      [ChatMessage.system toolSystemPrompt, ChatMessage.user prompt] (RunErr.abortErr m)
      (by rw [habort]; rfl)
    have hrun : runWithTavilyTool config prompt env =
        ([.request toolRoundReqInfo], .error (.abortErr m)) := by
      unfold runWithTavilyTool
      rw [show MAX_TOOL_ROUNDS = 2 + 1 from rfl]
      simp only [hrr]
    unfold streamChat streamChatRun
    rw [if_pos hkey]
    simp [hrun, callbackEvents]
  · intro config prompt env m hkey habort
    unfold streamChat streamChatRun
    rw [if_neg (by simp [hkey]), habort]
    simp [streamDirectChat, callbackEvents]
  · intro config prompt env m h
    unfold streamChat
    simp only [h]

theorem c2_witness :
    countErrorCb (streamChat cfgWithKey "p" envChatAborted) = 0 ∧
    callbackEvents (streamChat cfgWithKey "p" envChatAborted) = [] ∧
    callbackEvents (streamChat cfgNoKey "p" envStreamAborted) = [] ∧
    streamChat cfgWithKey "p" envSearchFail =
      (streamChatRun cfgWithKey "p" envSearchFail).1 ++
        [.errorCb (tavilyErrorMsg 500 "" "Internal Server Error")] := by
  refine ⟨?_, ?_, ?_, ?_⟩
  · exact c2_abort_suppression.1 cfgWithKey "p" envChatAborted
      "signal is aborted without reason" (by decide)
  · exact c2_abort_suppression.2.1 cfgWithKey "p" envChatAborted
      "signal is aborted without reason" (by decide) rfl
  · exact c2_abort_suppression.2.2.1 cfgNoKey "p" envStreamAborted
      "signal is aborted without reason" (by decide) rfl
  · exact c2_abort_suppression.2.2.2 cfgWithKey "p" envSearchFail
      (tavilyErrorMsg 500 "" "Internal Server Error") (by decide)

/-!
Claim C10.
-/

/-- C10: a tool-loop round whose response carries a message with no tool
calls and empty extracted content completes normally: the completion
callback fires, no chunk callback fires and no error is raised; only a
response with no message at all raises `Model returned empty response.`. -/
theorem c10_empty_final_answer :
    (∀ (config : AIConfig) (prompt : String) (env : NetEnv) (r : ChatResponse)
       (msg : RespMessage),
      env.chat 0 = .ok r → respMessage r = some msg → msg.tool_calls.getD [] = [] →
      extractTextContentOpt msg.content = "" →
      runWithTavilyTool config prompt env =
        ([.request toolRoundReqInfo, .done], .ok ())) ∧
    (∀ (config : AIConfig) (prompt : String) (env : NetEnv) (r : ChatResponse),
      env.chat 0 = .ok r → respMessage r = none →
      (runWithTavilyTool config prompt env).2 =
        .error (.err "Model returned empty response.")) := by
  constructor
  · intro config prompt env r msg h1 h2 h3 h4
    have hrr : runRounds env (jsTrim config.tavilyApiKey) (2 + 1) 0 0 0
        [ChatMessage.system toolSystemPrompt, ChatMessage.user prompt] =
        ([.request toolRoundReqInfo, .done], 1, 0, .completed) := by
      unfold runRounds
      rw [show fetchChatCompletion (env.chat 0) = .ok r from by rw [h1]; rfl]
      simp [h2, h3, h4]
    unfold runWithTavilyTool
    rw [show MAX_TOOL_ROUNDS = 2 + 1 from rfl]
    simp [hrr]
  · intro config prompt env r h1 h2
    have hrr : runRounds env (jsTrim config.tavilyApiKey) (2 + 1) 0 0 0
        [ChatMessage.system toolSystemPrompt, ChatMessage.user prompt] =
        ([.request toolRoundReqInfo], 1, 0,
         .failed (.err "Model returned empty response.")) := by
      unfold runRounds
      rw [show fetchChatCompletion (env.chat 0) = .ok r from by rw [h1]; rfl]
      simp [h2]
    unfold runWithTavilyTool
    rw [show MAX_TOOL_ROUNDS = 2 + 1 from rfl]
    simp [hrr]

theorem c10_witness :
    runWithTavilyTool cfgWithKey "p" envEmptyContent =
      ([.request toolRoundReqInfo, .done], .ok ()) ∧
    (runWithTavilyTool cfgWithKey "p" envNoMessage).2 =
      .error (.err "Model returned empty response.") := by
  exact ⟨c10_empty_final_answer.1 cfgWithKey "p" envEmptyContent emptyContentResp
      ⟨some (.str ""), none⟩ rfl rfl rfl rfl,
    c10_empty_final_answer.2 cfgWithKey "p" envNoMessage noMessageResp rfl rfl⟩

/-!
Claim C7.
-/

theorem handleToolCall_recovered (k : String) (tc : ChatToolCall)
    (hbad : callFnName tc ≠ some "search_web" ∨ parsedQuery tc = "")
    (sr : Except NetErr RawTavily) :
    handleToolCall sr k tc =
      { events := [.toolEvent ⟨.error, tc.id,
          (if callFnName tc ≠ some "search_web" then displayToolName tc else "search_web"),
          "",
          some (if callFnName tc ≠ some "search_web" then "Unsupported tool call."
                else "Missing query argument.")⟩]
        msgs := [.tool tc.id (toolErrorContent
          (if callFnName tc ≠ some "search_web" then "Unsupported tool call."
           else "Missing query argument."))]
        usedSearch := false
        fatal := none } := by
  by_cases hn : callFnName tc = some "search_web"
  · have hq : parsedQuery tc = "" := by
      rcases hbad with h | h
      · exact absurd hn h
      · exact h
    simp [handleToolCall, hn, hq]
  · simp [handleToolCall, hn]

/-- C7: a tool call whose name is not `search_web`, or whose arguments do
not parse to a non-empty string query, produces exactly one error
tool-activity event for that call, appends one tool-role transcript
message carrying a structured JSON error under that call's identifier,
raises no exception, and the loop continues with the remaining calls. -/
theorem c7_recoverable_tool_errors (k : String) (tc : ChatToolCall)
    (hbad : callFnName tc ≠ some "search_web" ∨ parsedQuery tc = "") :
    ∃ m t, (m = "Unsupported tool call." ∨ m = "Missing query argument.") ∧
      (∀ sr : Except NetErr RawTavily,
        (handleToolCall sr k tc).events = [.toolEvent ⟨.error, tc.id, t, "", some m⟩] ∧
        (handleToolCall sr k tc).msgs = [.tool tc.id (toolErrorContent m)] ∧
        (handleToolCall sr k tc).fatal = none) ∧
      (∀ (env : NetEnv) (sIdx : Nat) (rest : List ChatToolCall),
        processToolCalls env k sIdx (tc :: rest) =
          (.toolEvent ⟨.error, tc.id, t, "", some m⟩ :: (processToolCalls env k sIdx rest).1,
           .tool tc.id (toolErrorContent m) :: (processToolCalls env k sIdx rest).2.1,
           (processToolCalls env k sIdx rest).2.2.1,
           (processToolCalls env k sIdx rest).2.2.2)) := by
  refine ⟨if callFnName tc ≠ some "search_web" then "Unsupported tool call."
          else "Missing query argument.",
         if callFnName tc ≠ some "search_web" then displayToolName tc else "search_web",
         ?_, ?_, ?_⟩
  · split
    · left; rfl
    · right; rfl
  · intro sr
    rw [handleToolCall_recovered k tc hbad sr]
    exact ⟨rfl, rfl, rfl⟩
  · intro env sIdx rest
    show (processToolCalls env k sIdx (tc :: rest)) = _
    simp only [processToolCalls]
    rw [handleToolCall_recovered k tc hbad (env.search sIdx)]
    simp

theorem c7_witness :
    ∃ m t, (m = "Unsupported tool call." ∨ m = "Missing query argument.") ∧
      (handleToolCall (.ok rawSearchOk) "k" tcBadName).events =
        [.toolEvent ⟨.error, "call-bad", t, "", some m⟩] ∧
      (handleToolCall (.ok rawSearchOk) "k" tcBadName).fatal = none ∧
      (handleToolCall (.ok rawSearchOk) "k" tcBadArgs).fatal = none := by
  obtain ⟨m1, t1, hm1, h1, hc1⟩ :=
    c7_recoverable_tool_errors "k" tcBadName (Or.inl (by decide))
  obtain ⟨m2, t2, hm2, h2, hc2⟩ :=
    c7_recoverable_tool_errors "k" tcBadArgs (Or.inr (by decide))
  exact ⟨m1, t1, hm1, (h1 (.ok rawSearchOk)).1, (h1 (.ok rawSearchOk)).2.2,
    (h2 (.ok rawSearchOk)).2.2⟩

/-!
Claim C1.
-/

theorem processToolCalls_no_requests (env : NetEnv) (k : String) (sIdx : Nat)
    (tcs : List ChatToolCall) (st tl : Bool) :
    (processToolCalls env k sIdx tcs).1.countP (isReqShape st tl) = 0 := by
  rw [List.countP_eq_zero]
  intro a ha
  obtain ⟨te, rfl⟩ := processToolCalls_events_shape env k tcs sIdx a ha
  simp [isReqShape]

theorem streamDirectChat_no_nonstream_requests
    (resp : Except NetErr (Option StreamBody)) (tl : Bool) :
    (streamDirectChat resp).1.countP (isReqShape false tl) = 0 := by
  rw [List.countP_eq_zero]
  intro a ha
  rcases streamDirectChat_events_shape resp a ha with rfl | ⟨s, rfl⟩ | rfl <;>
    simp [isReqShape, streamReqInfo]

theorem handleToolCall_ok_fatal_none (raw : RawTavily) (k : String) (tc : ChatToolCall) :
    (handleToolCall (.ok raw) k tc).fatal = none := by
  simp only [handleToolCall]
  split
  · rfl
  · split
    · rfl
    · simp [searchWithTavily]

theorem processToolCalls_ok_fatal_none (env : NetEnv) (k : String) (hs : allSearchOk env) :
    ∀ (tcs : List ChatToolCall) (sIdx : Nat),
      (processToolCalls env k sIdx tcs).2.2.2 = none := by
  intro tcs
  induction tcs with
  | nil => intro sIdx; rfl
  | cons tc rest ih =>
    intro sIdx
    obtain ⟨raw, hraw⟩ := hs sIdx
    have hf : (handleToolCall (env.search sIdx) k tc).fatal = none := by
      rw [hraw]; exact handleToolCall_ok_fatal_none raw k tc
    simp only [processToolCalls]
    rw [hf]
    simp [ih]

theorem runRounds_all_tool_calls (env : NetEnv) (k : String)
    (hc : allChatToolCallResponses env) (hs : allSearchOk env) :
    ∀ (fuel round cIdx sIdx : Nat) (msgs : List ChatMessage),
      (runRounds env k fuel round cIdx sIdx msgs).2.1 = cIdx + fuel ∧
      (∃ msgs2, (runRounds env k fuel round cIdx sIdx msgs).2.2.2 = .exhausted msgs2) ∧
      countToolRoundReq (runRounds env k fuel round cIdx sIdx msgs).1 = fuel ∧
      countForcedFinalReq (runRounds env k fuel round cIdx sIdx msgs).1 = 0 := by
  intro fuel
  induction fuel with
  | zero =>
    intro round cIdx sIdx msgs
    exact ⟨rfl, ⟨msgs, rfl⟩, rfl, rfl⟩
  | succ fuel ih =>
    intro round cIdx sIdx msgs
    have hct := hc cIdx
    rcases hchat : env.chat cIdx with ne | resp
    · rw [hchat] at hct; simp [hasToolCallResp] at hct
    · rw [hchat] at hct
      simp only [hasToolCallResp] at hct
      rcases hmsg : respMessage resp with _ | msg
      · rw [hmsg] at hct; simp at hct
      · rw [hmsg] at hct
        simp only [Bool.not_eq_true', decide_eq_false_iff_not] at hct
        have hempty : (msg.tool_calls.getD []).isEmpty = false := by
          simpa using hct
        have hfatal := processToolCalls_ok_fatal_none env k hs (msg.tool_calls.getD []) sIdx
        have hfetch : fetchChatCompletion (env.chat cIdx) = .ok resp := by
          rw [hchat]; rfl
        have hih := ih (round + 1) (cIdx + 1)
          (processToolCalls env k sIdx (msg.tool_calls.getD [])).2.2.1
          ((msgs ++ [.assistant (extractTextContentOpt msg.content) (msg.tool_calls.getD [])]) ++
            (processToolCalls env k sIdx (msg.tool_calls.getD [])).2.1)
        simp only [runRounds, hfetch, hmsg, hempty, hfatal]
        refine ⟨?_, ?_, ?_, ?_⟩
        · simp only [Bool.false_eq_true, if_false]
          rw [hih.1]
          omega
        · simp only [Bool.false_eq_true, if_false]
          exact hih.2.1
        · simp only [Bool.false_eq_true, if_false, countToolRoundReq, List.countP_cons,
            List.countP_append]
          have h1 := processToolCalls_no_requests env k sIdx (msg.tool_calls.getD []) false true
          rw [countToolRoundReq] at hih
          rw [h1, hih.2.2.1]
          simp [isReqShape, toolRoundReqInfo]
          omega
        · simp only [Bool.false_eq_true, if_false, countForcedFinalReq, List.countP_cons,
            List.countP_append]
          have h1 := processToolCalls_no_requests env k sIdx (msg.tool_calls.getD []) false false
          rw [countForcedFinalReq] at hih
          rw [h1, hih.2.2.2]
          simp [isReqShape, toolRoundReqInfo]

theorem streamChat_countReq (config : AIConfig) (prompt : String) (env : NetEnv)
    (st tl : Bool) :
    (streamChat config prompt env).countP (isReqShape st tl) =
      (streamChatRun config prompt env).1.countP (isReqShape st tl) := by
  simp only [streamChat]
  split
  · rw [List.countP_append]; simp [isReqShape]
  · rfl

/-- C1 counterexample: in a run where every chat-completion response does
contain a tool call but the search provider rejects the first search with
HTTP 500, the loop stops after a single tool-call round, issues no
forced-final request at all, and surfaces the failure to the error
callback — contradicting the claim that such a run always performs the
rounds and then exactly one forced-final request. -/
theorem c1_counterexample :
    allChatToolCallResponses envSearchFail ∧
    countToolRoundReq (streamChat cfgWithKey "prompt" envSearchFail) = 1 ∧
    countForcedFinalReq (streamChat cfgWithKey "prompt" envSearchFail) = 0 ∧
    countErrorCb (streamChat cfgWithKey "prompt" envSearchFail) = 1 := by
  refine ⟨?_, by decide, by decide, by decide⟩
  intro i
  show hasToolCallResp (Except.ok toolCallResp) = true
  decide

/-- C1 (amended): for every run of the tool-orchestration loop in which
every chat-completion request yields a response containing at least one
tool call and every search invocation succeeds, the loop performs at most
3 tool-call rounds (there `MAX_TOOL_ROUNDS = 3`), then issues exactly one
additional forced-final non-streaming request with no tools declared, and
terminates rather than looping indefinitely. -/
theorem c1_round_bound (config : AIConfig) (prompt : String) (env : NetEnv)
    (hkey : jsTrim config.tavilyApiKey ≠ "")
    (hchat : allChatToolCallResponses env) (hsearch : allSearchOk env) :
    countToolRoundReq (streamChat config prompt env) ≤ 3 ∧
    countForcedFinalReq (streamChat config prompt env) = 1 := by
  have hrun : streamChatRun config prompt env = runWithTavilyTool config prompt env := by
    unfold streamChatRun; rw [if_pos hkey]
  have hcore : countToolRoundReq (runWithTavilyTool config prompt env).1 = 3 ∧
      countForcedFinalReq (runWithTavilyTool config prompt env).1 = 1 := by
    obtain ⟨hcI, ⟨msgs2, hres⟩, h3, h0⟩ :=
      runRounds_all_tool_calls env (jsTrim config.tavilyApiKey) hchat hsearch 3 0 0 0
        [ChatMessage.system toolSystemPrompt, ChatMessage.user prompt]
    simp only [runWithTavilyTool, MAX_TOOL_ROUNDS]
    set lr := runRounds env (jsTrim config.tavilyApiKey) 3 0 0 0
      [ChatMessage.system toolSystemPrompt, ChatMessage.user prompt] with hlr
    rw [hres]
    have hct := hchat lr.2.1
    rcases hc3 : env.chat lr.2.1 with ne | resp
    · rw [hc3] at hct; simp [hasToolCallResp] at hct
    · simp only [fetchChatCompletion]
      simp only [countToolRoundReq, countForcedFinalReq] at h3 h0 ⊢
      split
      · constructor
        · simp only [List.countP_append, h3, List.countP_cons]
          simp [isReqShape, toolRoundReqInfo, forcedFinalReqInfo]
        · simp only [List.countP_append, h0, List.countP_cons]
          simp [isReqShape, toolRoundReqInfo, forcedFinalReqInfo]
      · constructor
        · simp only [List.countP_append, h3, List.countP_cons,
            streamDirectChat_no_nonstream_requests]
          simp [isReqShape, toolRoundReqInfo, forcedFinalReqInfo]
        · simp only [List.countP_append, h0, List.countP_cons,
            streamDirectChat_no_nonstream_requests]
          simp [isReqShape, toolRoundReqInfo, forcedFinalReqInfo]
  have hsc1 := streamChat_countReq config prompt env false true
  have hsc2 := streamChat_countReq config prompt env false false
  simp only [countToolRoundReq, countForcedFinalReq] at hcore ⊢
  constructor
  · rw [hsc1, hrun]
    exact hcore.1.le
  · rw [hsc2, hrun]
    exact hcore.2

theorem c1_witness :
    countToolRoundReq (streamChat cfgWithKey "prompt" envAllToolCalls) ≤ 3 ∧
    countForcedFinalReq (streamChat cfgWithKey "prompt" envAllToolCalls) = 1 := by
  apply c1_round_bound
  · decide
  · intro i
    show hasToolCallResp (Except.ok toolCallResp) = true
    decide
  · intro j
    exact ⟨rawSearchOk, rfl⟩
